import Mathlib

/-!
Shallow embedding of the form-state engine in `src/unnamed/part_001`
(`formState.ts`): the dual-tree (proxy / original) editing state for a wire
record, with value fields, list fields, and object nodes.

Modelling conventions:
* JavaScript values that can sit in a value field are `JSVal`.  Object
  identity is explicit: a `date` or `objRef` carries a `Nat` identity, a
  `plainObj` is compared structurally only (the code never compares plain
  objects by reference).
* mobx proxies are not distinguished from their targets for scalar values
  (`toJS` is the identity here); for list children, proxy identity and
  original identity are kept in disjoint spaces by the `ObjId` type, since
  a mobx `observable` proxy is a distinct object from its target.
* Stateful code becomes explicit state passing; fallible code returns
  `Except String`.
-/

namespace FormState

/-- A JavaScript value as stored in a value field: `undefined`, `null`,
strings, numbers, `Date`-like objects (which expose `toJSON`, identity `id`,
payload `time`), plain object literals (flat string-valued fields, compared
structurally), and other objects compared by reference identity. -/
inductive JSVal where
  | undef
  | null
  | str (s : String)
  | num (n : Int)
  | date (id : Nat) (time : Int)
  | plainObj (fields : List (String × String))
  | objRef (id : Nat)
  deriving Repr, DecidableEq

/-- `isEmpty` from formState.ts: `value === undefined || value === null || value === ""`. -/
def isEmpty : JSVal → Bool
  | .undef => true
  | .null => true
  | .str s => s == ""
  | _ => false

/-- `isPlainObject` (the is-plain-object package): true exactly for object literals. -/
def isPlainObject : JSVal → Bool
  | .plainObj _ => true
  | _ => false

/-- `hasToJSON` from formState.ts: the value is an object exposing `toJSON`.
In this universe only `Date`s do. -/
def hasToJSON : JSVal → Bool
  | .date _ _ => true
  | _ => false

/-- `Date.prototype.toJSON` (an ISO string), modelled injectively in the time. -/
def dateToJSON (time : Int) : String := "date:" ++ toString time

/-- `toJS` from mobx unwraps a proxy into its plain target.  Scalar proxies are
not distinguished from their targets in this model, so it is the identity. -/
def toJS (v : JSVal) : JSVal := v

/-- Applying `toJSON` when available (the `a1`/`b1` step of `areEqual`). -/
def toJSONVal : JSVal → JSVal
  | .date _ t => .str (dateToJSON t)
  | v => v

/-- Key-wise equality of flat string maps, as the fast-deep-equal package
computes it for plain objects (same key set, equal value per key; JS object
literals have no duplicate keys). -/
def objEqual (a b : List (String × String)) : Bool :=
  (a.all fun kv => b.lookup kv.1 == a.lookup kv.1) &&
    (b.all fun kv => a.lookup kv.1 == b.lookup kv.1)

/-- The fast-deep-equal package restricted to this value universe: plain
objects key-wise, `Date`s by time, everything else by `===` (mixed
object kinds fail its constructor check). -/
def equalJS : JSVal → JSVal → Bool
  | .plainObj a, .plainObj b => objEqual a b
  | .date _ t, .date _ u => t == u
  | a, b => a == b

/-- `areEqual` from formState.ts: deep equality for plain objects,
`toJSON`-normalized equality when either side has `toJSON`, `===` otherwise. -/
def areEqual (a b : JSVal) : Bool :=
  if isPlainObject a then equalJS (toJS a) (toJS b)
  else if hasToJSON a || hasToJSON b then equalJS (toJSONVal a) (toJSONVal b)
  else a == b

/-- A validation rule as used by the claims: from the field value to an
optional error.  (The source also passes the key and the parent object to a
rule; no claim involves a rule that reads them, so they are omitted.) -/
def Rule : Type := JSVal → Option String

/-- The built-in `required` rule: rejects `undefined`/`null`/empty string. -/
def required : Rule := fun v =>
  if v != JSVal.undef && v != JSVal.null && v != JSVal.str "" then none else some "Required"

/-- `newValueFieldState`: the state of one value field.  `originalValue` is
the private `_originalValue` baseline; `proxyValue` and `origTreeValue` are
the contents of `parent.value[key]` and `parent.originalValue[key]`, the two
slots this field writes (flattened into the field state here). -/
structure ValueField where
  key : String
  rules : List Rule
  touched : Bool := false
  readOnly : Bool := false
  originalValue : JSVal := .undef
  proxyValue : JSVal := .undef
  origTreeValue : JSVal := .undef
  initialized : Bool := false

/-- A fresh value field as built by `newValueFieldState(key, rules)`. -/
def freshValueField (key : String) (rules : List Rule) : ValueField :=
  { key := key, rules := rules }

/-- The guard-free body of `FieldState.set`: compute `newValue` by the
clear-vs-unset policy and write it into both trees. -/
def ValueField.setCore (f : ValueField) (value : JSVal) : ValueField :=
  let keepNull := !isEmpty f.originalValue && isEmpty value
  let newValue := if keepNull then JSVal.null else if isEmpty value then JSVal.undef else value
  { f with proxyValue := newValue, origTreeValue := newValue }

/-- `FieldState.set`: fails when not initialized or read-only, otherwise
runs the clear-vs-unset store. -/
def ValueField.set (f : ValueField) (value : JSVal) : Except String ValueField :=
  if !f.initialized then .error "Not initialized"
  else if f.readOnly then .error "Currently readOnly"
  else .ok (f.setCore value)

/-- `FieldState.init`: captures the baseline (normalizing an initial `null`
to `undefined`; the `isPlainObject` test inspects the previous baseline, as
in the source), marks initialized, clears read-only, then delegates to
`set` — whose guards it has just made pass, so the guard-free core is used. -/
def ValueField.init (f : ValueField) (value : JSVal) : ValueField :=
  let ov := if value == JSVal.null then JSVal.undef
            else if isPlainObject f.originalValue then toJS value else value
  ValueField.setCore
    { f with originalValue := ov, initialized := true, readOnly := false } value

/-- The `value` getter: reads `parent.value[key]`. -/
def ValueField.value (f : ValueField) : JSVal := f.proxyValue

/-- The `dirty` getter: `!areEqual(this.originalValue, this.value)`. -/
def ValueField.dirty (f : ValueField) : Bool := !areEqual f.originalValue f.value

/-- The `valid` getter: every rule returns no error on the current value. -/
def ValueField.valid (f : ValueField) : Bool := f.rules.all fun r => r f.value == none

/-- The `errors` getter: the non-`undefined` rule results in order. -/
def ValueField.errors (f : ValueField) : List String := f.rules.filterMap fun r => r f.value

/-- `blur()`: marks the field touched. -/
def ValueField.blur (f : ValueField) : ValueField := { f with touched := true }

/-- `reset()`: `this.set(this.originalValue)` then clear touched (the inner
`set` may throw when read-only, exactly as in the source). -/
def ValueField.reset (f : ValueField) : Except String ValueField :=
  (f.set f.originalValue).map fun f₁ => { f₁ with touched := false }

/-- `save()`: re-capture the baseline from the current value (through `toJS`
for a plain-object baseline) and clear touched. -/
def ValueField.save (f : ValueField) : ValueField :=
  let ov := if isPlainObject f.originalValue then toJS f.value else f.value
  { f with originalValue := ov, touched := false }

/-- An object identity for list children.  A mobx `observable` proxy is a
distinct object from its (non-proxy) target, so the two identity spaces are
disjoint by construction: `orig n` is a caller-supplied record, `proxy n` is
a child `ObjectState`'s `value` proxy. -/
inductive ObjId where
  | orig (n : Nat)
  | proxy (n : Nat)
  deriving Repr, DecidableEq

/-- A caller-supplied child record (the list rows' wire type, as in the
repository's `BookInput`: one value field `title`), with its identity. -/
structure ChildRec where
  ref : Nat
  title : JSVal

/-- The `ObjectState` of one list row at the child configuration
`{title: {type: "value"}}` used throughout the repository.  `proxyRef` is the
identity of `this.value` (the row's mobx proxy, allocated fresh);
`originalRef` is the private `_originalValue` — every row state registered in
the row maps has had `init` called, so it is always present. -/
structure ChildState where
  proxyRef : Nat
  originalRef : ObjId
  initialized : Bool
  readOnlyFlag : Bool
  title : ValueField

/-- `createObjectState(config)` followed by `childState.init(value)` for one
row: object `init` stores the record as `originalValue`, marks initialized,
clears read-only (cascading into the field), then inits the `title` field. -/
def createChildState (proxyRef : Nat) (rec : ChildRec) : ChildState :=
  { proxyRef := proxyRef
    originalRef := .orig rec.ref
    initialized := true
    readOnlyFlag := false
    title := (freshValueField "title" []).init rec.title }

/-- The row `ObjectState`'s `readOnly` setter: set the flag, cascade into
every field. -/
def ChildState.setReadOnly (c : ChildState) (b : Bool) : ChildState :=
  { c with readOnlyFlag := b, title := { c.title with readOnly := b } }

/-- The row `ObjectState`'s `touched` setter: cascade into every field. -/
def ChildState.setTouched (c : ChildState) (b : Bool) : ChildState :=
  { c with title := { c.title with touched := b } }

/-- The row `ObjectState`'s `dirty` getter: some field is dirty. -/
def ChildState.dirty (c : ChildState) : Bool := c.title.dirty

/-- The row `ObjectState`'s `touched` getter: some field is touched. -/
def ChildState.touched (c : ChildState) : Bool := c.title.touched

/-- The row `ObjectState`'s `valid` getter: every field is valid. -/
def ChildState.valid (c : ChildState) : Bool := c.title.valid

/-- A list-level rule: from the current proxy array to an optional error. -/
def ListRule : Type := List Nat → Option String

/-- `newListFieldState`: the state of one list field.
* `originalCopy` is the private dirty-checking baseline (identities of the
  children passed to `init`/re-captured by `save`);
* `pool` holds every child `ObjectState` ever registered in the two row maps
  (`proxyRowMap` is `proxyRef ↦ pool entry`; `nonProxyRowMap` is kept
  separately below); the maps never evict, so the pool only grows;
* `proxyArr` is the contents of `parent.value[key]`, a list of row proxy
  identities;
* `origArr`/`origArrPresent` model `parent.originalValue[key]`: the contents
  of the caller's own array when the record had one (`origArrPresent`), which
  the autorun mutates in place; a record without the key keeps `undefined`
  there (the autorun's `|| []` writes into a discarded fresh array);
* `nextProxy` allocates fresh proxy identities. -/
structure ListFieldState where
  key : String
  rules : List ListRule
  initialized : Bool := false
  readOnlyFlag : Bool := false
  originalCopy : Option (List ObjId) := none
  pool : List ChildState := []
  nonProxyRowMap : List (ObjId × Nat) := []
  proxyArr : List Nat := []
  origArr : List ObjId := []
  origArrPresent : Bool := false
  nextProxy : Nat := 0

/-- A fresh list field as built by `newListFieldState(key, rules, config)`. -/
def freshListField (key : String) (rules : List ListRule) : ListFieldState :=
  { key := key, rules := rules }

/-- `Map.get` on an identity-keyed map (later `set`s shadow earlier ones). -/
def mapGet (m : List (ObjId × Nat)) (k : ObjId) : Option Nat :=
  (m.find? fun kv => kv.1 == k).map Prod.snd

/-- `proxyRowMap.get`: look a row state up by its proxy identity. -/
def ListFieldState.findRow (l : ListFieldState) (p : Nat) : Option ChildState :=
  l.pool.find? fun c => c.proxyRef == p

/-- The `rows` getter: map the proxy array through the row cache.  On
API-reachable states every proxy-array element is registered (the getter's
create-on-miss branch would call `set` on an uninitialized state and throw,
and is unreachable), so a missing entry is simply dropped. -/
def ListFieldState.rows (l : ListFieldState) : List ChildState :=
  l.proxyArr.filterMap fun p => l.findRow p

/-- The list `readOnly` setter: set the flag, cascade into every current row. -/
def ListFieldState.setReadOnly (l : ListFieldState) (b : Bool) : ListFieldState :=
  { l with readOnlyFlag := b
           pool := l.pool.map fun c =>
             if l.proxyArr.contains c.proxyRef then c.setReadOnly b else c }

/-- The list `touched` setter: cascade into every current row. -/
def ListFieldState.setTouched (l : ListFieldState) (b : Bool) : ListFieldState :=
  { l with pool := l.pool.map fun c =>
      if l.proxyArr.contains c.proxyRef then c.setTouched b else c }

/-- `hasNewItems`: mutual-`includes` comparison of the original-tree array
against the `originalCopy` baseline (set membership, order-insensitive). -/
def ListFieldState.hasNewItems (l : ListFieldState) : Bool :=
  if !l.initialized then false
  else
    let currentList := if l.origArrPresent then l.origArr else []
    let oc := l.originalCopy.getD []
    let a := currentList.all fun e => oc.contains e
    let b := oc.all fun e => currentList.contains e
    !(a && b)

/-- The list `dirty` getter: some row is dirty, or the membership check. -/
def ListFieldState.dirty (l : ListFieldState) : Bool :=
  l.rows.any ChildState.dirty || l.hasNewItems

/-- The list `touched` getter: some row is touched, or the membership check. -/
def ListFieldState.touchedGet (l : ListFieldState) : Bool :=
  l.rows.any ChildState.touched || l.hasNewItems

/-- The list `valid` getter: list rules pass on the value and every row is valid. -/
def ListFieldState.valid (l : ListFieldState) : Bool :=
  (l.rules.all fun r => r l.proxyArr == none) && l.rows.all ChildState.valid

/-- The body of the list `set`'s `values.map(...)`: for each incoming child
(a non-proxy record — the source notes "We should be passed values that are
non-proxies", so the `proxyRowMap.get(value)` lookup misses by identity-space
disjointness), reuse the `nonProxyRowMap` entry or create, init and register
a fresh row state, threading the mutations left to right. -/
def setLoop (l : ListFieldState) (arr : List Nat) : List ChildRec → ListFieldState × List Nat
  | [] => (l, arr)
  | cr :: rest =>
    match mapGet l.nonProxyRowMap (.orig cr.ref) with
    | some p => setLoop l (arr ++ [p]) rest
    | none =>
      setLoop
        { l with pool := l.pool ++ [createChildState l.nextProxy cr]
                 nonProxyRowMap := (ObjId.orig cr.ref, l.nextProxy) :: l.nonProxyRowMap
                 nextProxy := l.nextProxy + 1 }
        (arr ++ [l.nextProxy]) rest

/-- The guard-free body of the list `set`: build the new proxy array from the
incoming children and assign it into `parent.value[key]`. -/
def ListFieldState.setCore (l : ListFieldState) (vs : List ChildRec) : ListFieldState :=
  let la := setLoop l [] vs
  { la.1 with proxyArr := la.2 }

/-- The list `set`: fails when not initialized or read-only. -/
def ListFieldState.set (l : ListFieldState) (vs : List ChildRec) : Except String ListFieldState :=
  if !l.initialized then .error "Not initialized"
  else if l.readOnlyFlag then .error "Currently readOnly"
  else .ok (l.setCore vs)

/-- The list `init(values)`: capture `originalCopy` (an empty list when the
record had no such key), mark initialized, clear read-only (cascading into
current rows), then delegate to `set` — whose guards it just made pass. -/
def ListFieldState.init (l : ListFieldState) (values : Option (List ChildRec)) : ListFieldState :=
  let oc := (values.getD []).map fun rec => ObjId.orig rec.ref
  let l₁ := { l with originalCopy := some oc, initialized := true }
  (l₁.setReadOnly false).setCore (values.getD [])

/-- `add(value)`: build and init a fresh row state for the (non-proxy) child,
register it in both row maps, push its proxy value onto the live proxy
array.  No initialization or read-only guard appears in the source. -/
def ListFieldState.add (l : ListFieldState) (rec : ChildRec) : ListFieldState :=
  { l with pool := l.pool ++ [createChildState l.nextProxy rec]
           nonProxyRowMap := (ObjId.orig rec.ref, l.nextProxy) :: l.nonProxyRowMap
           proxyArr := l.proxyArr ++ [l.nextProxy]
           nextProxy := l.nextProxy + 1 }

/-- JavaScript `array.splice(start, 1)` (the resulting array contents):
negative starts count from the end and clamp at 0, starts past the end
delete nothing. -/
def splice1 {α : Type} (xs : List α) (start : Int) : List α :=
  let len : Int := xs.length
  let actualStart : Nat := (if start < 0 then max (len + start) 0 else min start len).toNat
  xs.take actualStart ++ xs.drop (actualStart + 1)

/-- `remove(indexOrValue)`: a numeric argument is spliced directly; a value
argument is located with `findIndex(v => v === indexOrValue)` over the live
proxy array (whose elements are the rows' proxy identities) and spliced only
when found.  No initialization or read-only guard appears in the source. -/
def ListFieldState.remove (l : ListFieldState) (arg : Int ⊕ ObjId) : ListFieldState :=
  match arg with
  | .inl i => { l with proxyArr := splice1 l.proxyArr i }
  | .inr v =>
    match l.proxyArr.findIdx? (fun p => ObjId.proxy p == v) with
    | some i => { l with proxyArr := splice1 l.proxyArr (i : Int) }
    | none => l

/-- The list autorun: after every mutation, overwrite the original-tree array
in place with the rows' `originalValue`s in current proxy order.  When the
record never had the key, the `|| []` makes it write into a discarded fresh
array and the original tree keeps `undefined`. -/
def ListFieldState.reconcile (l : ListFieldState) : ListFieldState :=
  if !l.initialized then l
  else if !l.origArrPresent then l
  else { l with origArr := l.rows.map ChildState.originalRef }

/-- The caller-supplied top record (the repository's `AuthorInput`: one value
field `firstName`, one list field `books`; `books := none` models a record
without the key). -/
structure AuthorRec where
  ref : Nat
  firstName : JSVal
  books : Option (List ChildRec)

/-- `newObjectState` for the author configuration.  `originalRef` is the
private `_originalValue` (the identity of the record passed to `init`). -/
structure AuthorState where
  initialized : Bool := false
  readOnlyFlag : Bool := false
  originalRef : Option Nat := none
  firstName : ValueField
  books : ListFieldState

/-- A fresh author `ObjectState` as built by `createObjectState(config)`,
for field rules `fnRules`/`bkRules`. -/
def freshAuthorState (fnRules : List Rule) (bkRules : List ListRule) : AuthorState :=
  { firstName := freshValueField "firstName" fnRules
    books := freshListField "books" bkRules }

/-- The object `readOnly` setter: set the flag, cascade into every field. -/
def AuthorState.setReadOnly (s : AuthorState) (b : Bool) : AuthorState :=
  { s with readOnlyFlag := b
           firstName := { s.firstName with readOnly := b }
           books := s.books.setReadOnly b }

/-- The object `touched` setter: cascade into every field. -/
def AuthorState.setTouched (s : AuthorState) (b : Bool) : AuthorState :=
  { s with firstName := { s.firstName with touched := b }
           books := s.books.setTouched b }

/-- The object `touched` getter: some field is touched. -/
def AuthorState.touched (s : AuthorState) : Bool :=
  s.firstName.touched || s.books.touchedGet

/-- The object `valid` getter: every field is valid. -/
def AuthorState.valid (s : AuthorState) : Bool :=
  s.firstName.valid && s.books.valid

/-- The object `dirty` getter: some field is dirty. -/
def AuthorState.dirty (s : AuthorState) : Bool :=
  s.firstName.dirty || s.books.dirty

/-- `canSave()`: set `touched = true` (cascading) as a side effect, then
return `valid`.  The mutated state is returned alongside the result. -/
def AuthorState.canSave (s : AuthorState) : AuthorState × Bool :=
  let s₁ := s.setTouched true
  (s₁, s₁.valid)

/-- The object `originalValue` getter: returns the stored `_originalValue`
(`none` models `undefined`); the source getter has no error path, only a
dummy read of `_originalChanged` for reactivity. -/
def AuthorState.originalValue (s : AuthorState) : Option Nat := s.originalRef

/-- The object `init(record)`: store the record as the original-tree identity,
mark initialized, clear read-only (cascading), then `init` every declared
field — including ones absent from the record — with the record's slot, and
let the list autorun reconcile.  The original-tree slots the fields will
overwrite are re-pointed at the new record first.  The source has no
already-initialized guard. -/
def AuthorState.init (s : AuthorState) (r : AuthorRec) : AuthorState :=
  let s₁ := { s with originalRef := some r.ref, initialized := true }
  let s₂ := s₁.setReadOnly false
  let bk₀ := { s₂.books with
               origArrPresent := r.books.isSome
               origArr := (r.books.getD []).map fun cr : ChildRec => ObjId.orig cr.ref }
  { s₂ with firstName := s₂.firstName.init r.firstName
            books := (bk₀.init r.books).reconcile }

/-- Updating one cached row state in place (the row maps alias the same
mutable `ObjectState`, so a row mutation is visible through every map). -/
def ListFieldState.updateRow (l : ListFieldState) (p : Nat)
    (g : ChildState → ChildState) : ListFieldState :=
  { l with pool := l.pool.map fun c => if c.proxyRef == p then g c else c }

/-- A row's `title.set(v)`: the guards precede every write in the source, so
a thrown call leaves the row unchanged. -/
def ChildState.setTitle (c : ChildState) (v : JSVal) : ChildState :=
  match c.title.set v with
  | .ok t => { c with title := t }
  | .error _ => c

/-- One caller-visible `set`/`add`/`remove` call on an initialized author
node or one of its fields: the object-level partial `set` decomposes into
the per-field sets of the keys present, so the field-level calls are the
primitive operations.  A row is addressed by its proxy identity (the row
object a UI holds on to). -/
inductive Op where
  | setFirstName (v : JSVal)
  | setBooks (vs : List ChildRec)
  | addBook (cr : ChildRec)
  | removeIdx (i : Int)
  | removeVal (v : ObjId)
  | setRowTitle (p : Nat) (v : JSVal)

/-- Run one operation.  Calls that throw (the guards fire before any write)
leave the state unchanged; every mutation that can change row membership is
followed by the list autorun (`reconcile`), as mobx runs it synchronously. -/
def AuthorState.applyOp (s : AuthorState) (op : Op) : AuthorState :=
  match op with
  | .setFirstName v =>
    match s.firstName.set v with
    | .ok f => { s with firstName := f }
    | .error _ => s
  | .setBooks vs =>
    match s.books.set vs with
    | .ok l => { s with books := l.reconcile }
    | .error _ => s
  | .addBook cr => { s with books := (s.books.add cr).reconcile }
  | .removeIdx i => { s with books := (s.books.remove (.inl i)).reconcile }
  | .removeVal v => { s with books := (s.books.remove (.inr v)).reconcile }
  | .setRowTitle p v =>
    { s with books := (s.books.updateRow p (fun c => c.setTitle v)).reconcile }

/-- Run a finite sequence of operations left to right. -/
def AuthorState.runOps (s : AuthorState) (ops : List Op) : AuthorState :=
  ops.foldl AuthorState.applyOp s

/-! ### Helper lemmas -/

lemma areEqual_refl (v : JSVal) : areEqual v v = true := by
  cases v <;>
    simp [areEqual, isPlainObject, hasToJSON, equalJS, toJS, toJSONVal, objEqual,
      List.all_eq_true]

lemma dateToJSON_ne_empty (t : Int) : dateToJSON t ≠ "" := by
  intro h
  have h0 : (dateToJSON t).length = 0 := by rw [h]; rfl
  rw [dateToJSON, String.length_append] at h0
  have h5 : ("date:").length = 5 := rfl
  omega

/-- A non-empty value never compares equal to an empty one under `areEqual`. -/
lemma areEqual_nonempty_empty {a b : JSVal}
    (ha : isEmpty a = false) (hb : isEmpty b = true) : areEqual a b = false := by
  cases a <;> cases b <;>
    simp_all [areEqual, isPlainObject, hasToJSON, equalJS, toJS, toJSONVal,
      isEmpty, dateToJSON_ne_empty]

/-- `ValueField.setCore` stores the same normalized value into both trees and
touches nothing else. -/
lemma setCore_fields (f : ValueField) (v : JSVal) :
    (f.setCore v).originalValue = f.originalValue ∧
      (f.setCore v).initialized = f.initialized ∧
      (f.setCore v).readOnly = f.readOnly ∧
      (f.setCore v).touched = f.touched ∧
      (f.setCore v).proxyValue = (f.setCore v).origTreeValue := by
  simp [ValueField.setCore]

/-- On an initialized, non-read-only field, `set` succeeds with the core store. -/
lemma set_ok {f : ValueField} (hi : f.initialized = true) (hro : f.readOnly = false)
    (v : JSVal) : f.set v = .ok (f.setCore v) := by
  simp [ValueField.set, hi, hro]

/-! ### Claim C7 -/

/-- Counterexample to claim C7: the `originalValue` getter (part_001 lines
249–252) has no error path — on a freshly created object node, before any
`init`, it returns the stored `_originalValue`, which is `undefined`, instead
of failing with an illegal-state error as the claim requires. -/
theorem c7_counterexample :
    (freshAuthorState [] []).originalValue = none ∧
      (freshAuthorState [] []).initialized = false := by
  constructor <;> rfl

/-- Claim C7 (amended): reading `originalValue` on an object node before
`init` returns `undefined` (it does not fail); after `init` it returns the
caller-supplied record. -/
theorem c7_amended (fnR : List Rule) (bkR : List ListRule) (r : AuthorRec) :
    (freshAuthorState fnR bkR).originalValue = none ∧
      ((freshAuthorState fnR bkR).init r).originalValue = some r.ref := by
  constructor <;> rfl

/-! ### Claim C6 -/

/-- Counterexample to claim C6: `init` (part_001 lines 209–222) has no
already-initialized guard, so a second `init` on an initialized node does not
fail — it simply re-runs initialization and re-captures the new record (the
repository's demo app relies on exactly this, re-initializing on a button
click). -/
theorem c6_counterexample :
    (((freshAuthorState [] []).init ⟨1, .str "a1", none⟩).init
        ⟨2, .str "a2", none⟩).originalValue = some 2 ∧
      (((freshAuthorState [] []).init ⟨1, .str "a1", none⟩).init
        ⟨2, .str "a2", none⟩).initialized = true := by
  constructor <;> rfl

/-- Claim C6 (amended): calling `init` again on an already-initialized object
node does not fail: initialization is re-run, re-capturing the new record as
the original-tree identity and re-baselining the fields (an initial `null`
still normalizes to `undefined`). -/
theorem c6_amended (s : AuthorState) (r : AuthorRec) (h : s.initialized = true) :
    (s.init r).initialized = true ∧
      (s.init r).originalValue = some r.ref ∧
      (s.init r).firstName.originalValue =
        (if r.firstName = .null then .undef else r.firstName) := by
  refine ⟨rfl, rfl, ?_⟩
  simp [AuthorState.init, AuthorState.setReadOnly, ValueField.init, toJS,
    ValueField.setCore]

/-- Witness for C6 (amended): a concrete already-initialized node,
re-initialized with a second record. -/
theorem c6_amended_witness :
    (((freshAuthorState [] []).init ⟨1, .str "a1", none⟩).initialized = true) ∧
      ((((freshAuthorState [] []).init ⟨1, .str "a1", none⟩).init
          ⟨2, .str "a2", none⟩).originalValue = some 2) := by
  refine ⟨rfl, ?_⟩
  exact (c6_amended ((freshAuthorState [] []).init ⟨1, .str "a1", none⟩)
    ⟨2, .str "a2", none⟩ rfl).2.1

/-! ### Claim C2 -/

/-- Claim C2: on an initialized, non-read-only value field, `set(v)` stores
`null` into both the proxy tree and the original tree when the captured
baseline is non-empty and `v` is empty; stores `undefined` when the baseline
is empty and `v` is empty; stores `v` itself otherwise.  And `init(null)` on
a fresh field captures the baseline as `undefined`, so the field immediately
reads as `undefined` rather than `null`. -/
theorem c2_clear_vs_unset (f : ValueField) (v : JSVal)
    (hi : f.initialized = true) (hro : f.readOnly = false) :
    (f.set v = .ok (f.setCore v)) ∧
    (isEmpty f.originalValue = false → isEmpty v = true →
      (f.setCore v).proxyValue = .null ∧ (f.setCore v).origTreeValue = .null) ∧
    (isEmpty f.originalValue = true → isEmpty v = true →
      (f.setCore v).proxyValue = .undef ∧ (f.setCore v).origTreeValue = .undef) ∧
    (isEmpty v = false →
      (f.setCore v).proxyValue = v ∧ (f.setCore v).origTreeValue = v) ∧
    (∀ key rules, ((freshValueField key rules).init .null).originalValue = .undef ∧
      ((freshValueField key rules).init .null).value = .undef) := by
  refine ⟨set_ok hi hro v, ?_, ?_, ?_, ?_⟩
  · intro h1 h2; simp [ValueField.setCore, h1, h2]
  · intro h1 h2; simp [ValueField.setCore, h1, h2]
  · intro h1; simp [ValueField.setCore, h1]
  · intro key rules
    constructor <;> rfl

/-- Witness for C2: a concrete initialized field with a non-empty baseline,
cleared with an empty string, stores `null` into both trees. -/
theorem c2_witness :
    ((((freshValueField "firstName" []).init (.str "a")).setCore (.str "")).proxyValue
        = .null) ∧
      ((((freshValueField "firstName" []).init (.str "a")).setCore (.str "")).origTreeValue
        = .null) :=
  (c2_clear_vs_unset ((freshValueField "firstName" []).init (.str "a")) (.str "")
      rfl rfl).2.1 rfl rfl

/-! ### Concrete scenario states shared by witnesses and counterexamples -/

/-- A concrete book record, identity 0. -/
def bookA : ChildRec := ⟨0, .str "t1"⟩

/-- A concrete book record, identity 1. -/
def bookB : ChildRec := ⟨1, .str "t2"⟩

/-- A concrete book record, identity 2. -/
def bookC : ChildRec := ⟨2, .str "t3"⟩

/-- A concrete author node initialized with two books. -/
def authorA : AuthorState :=
  (freshAuthorState [] []).init ⟨100, .str "a1", some [bookA, bookB]⟩

/-- A concrete list field whose live proxy array has three rows. -/
def listW : ListFieldState := { freshListField "books" [] with proxyArr := [10, 20, 30] }

/-- A numeric in-range `remove` is the take/drop splice. -/
lemma remove_nat_take_drop (l : ListFieldState) (i : Nat) (hi : i < l.proxyArr.length) :
    (l.remove (.inl (i : Int))).proxyArr = l.proxyArr.take i ++ l.proxyArr.drop (i + 1) := by
  have hA : (if (i : Int) < 0 then max ((l.proxyArr.length : Int) + i) 0
      else min (i : Int) (l.proxyArr.length : Int)).toNat = i := by omega
  simp only [ListFieldState.remove, splice1]
  rw [hA]

/-! ### Claim C10 -/

/-- Claim C10: on any list field, a numeric `remove(i)` is a single-element
`splice` on the live proxy array and never throws (the model is a total
function, as the source path `value.splice(i, 1)` is): for `0 ≤ i < length`
it removes position `i`; `remove(-1)` removes the last row; a negative `i`
within range removes position `length + i`; for `i ≥ length` the array is
unchanged. -/
theorem c10_remove_numeric (l : ListFieldState) (i : Int) :
    (0 ≤ i → i.toNat < l.proxyArr.length →
      (l.remove (.inl i)).proxyArr =
        l.proxyArr.take i.toNat ++ l.proxyArr.drop (i.toNat + 1)) ∧
    (l.proxyArr ≠ [] →
      (l.remove (.inl (-1))).proxyArr = l.proxyArr.dropLast) ∧
    (-(l.proxyArr.length : Int) ≤ i → i < 0 →
      (l.remove (.inl i)).proxyArr =
        l.proxyArr.take ((l.proxyArr.length : Int) + i).toNat ++
          l.proxyArr.drop (((l.proxyArr.length : Int) + i).toNat + 1)) ∧
    ((l.proxyArr.length : Int) ≤ i → (l.remove (.inl i)).proxyArr = l.proxyArr) := by
  refine ⟨?_, ?_, ?_, ?_⟩
  · intro h0 hlt
    have hA : (if i < 0 then max ((l.proxyArr.length : Int) + i) 0
        else min i (l.proxyArr.length : Int)).toNat = i.toNat := by omega
    simp only [ListFieldState.remove, splice1]
    rw [hA]
  · intro hne
    have hlen : 1 ≤ l.proxyArr.length := List.length_pos.mpr hne
    have hA : (if (-1 : Int) < 0 then max ((l.proxyArr.length : Int) + -1) 0
        else min (-1) (l.proxyArr.length : Int)).toNat = l.proxyArr.length - 1 := by
      omega
    simp only [ListFieldState.remove, splice1]
    rw [hA]
    have hsucc : l.proxyArr.length - 1 + 1 = l.proxyArr.length := by omega
    rw [hsucc, List.drop_length, List.append_nil, List.dropLast_eq_take]
  · intro hge hlt
    have hA : (if i < 0 then max ((l.proxyArr.length : Int) + i) 0
        else min i (l.proxyArr.length : Int)).toNat =
          ((l.proxyArr.length : Int) + i).toNat := by omega
    simp only [ListFieldState.remove, splice1]
    rw [hA]
  · intro hge
    have hA : (if i < 0 then max ((l.proxyArr.length : Int) + i) 0
        else min i (l.proxyArr.length : Int)).toNat = l.proxyArr.length := by omega
    simp only [ListFieldState.remove, splice1]
    rw [hA, List.take_length, List.drop_eq_nil_of_le (by omega), List.append_nil]

/-- Witness for C10: the three behaviors at a concrete three-row list. -/
theorem c10_witness :
    ((listW.remove (.inl 1)).proxyArr = [10, 30]) ∧
      ((listW.remove (.inl (-1))).proxyArr = [10, 20]) ∧
      ((listW.remove (.inl (-2))).proxyArr = [10, 30]) ∧
      ((listW.remove (.inl 5)).proxyArr = [10, 20, 30]) := by
  refine ⟨?_, ?_, ?_, ?_⟩
  · simpa using (c10_remove_numeric listW 1).1 (by decide) (by decide)
  · simpa using (c10_remove_numeric listW (-1)).2.1 (by decide)
  · simpa using (c10_remove_numeric listW (-2)).2.2.1 (by decide) (by decide)
  · simpa using (c10_remove_numeric listW 5).2.2.2 (by decide)

/-! ### Claim C4 -/

/-- Counterexample to claim C4: passing the original-side child to `remove`
removes nothing.  `authorA` holds the caller's book records with identities
`orig 0`/`orig 1`; `remove` runs `findIndex(v => v === indexOrValue)` over
the live proxy array, whose elements are the rows' `value` proxies —
distinct objects from the original-side records — so `remove(bookA)` leaves
both rows in place, where the claim requires the row to be removed. -/
theorem c4_counterexample :
    authorA.books.proxyArr = [0, 1] ∧
      (authorA.applyOp (.removeVal (.orig 0))).books.proxyArr = [0, 1] := by
  constructor <;> rfl

/-- Claim C4 (amended): `remove` removes the row at a numeric index; a value
argument is located by reference equality against the live proxy array's
elements, which are the rows' proxy-side `value`s — so a proxy-side argument
removes its position, while an original-side child reference never matches
and the call leaves the list unchanged. -/
theorem c4_amended (l : ListFieldState) :
    (∀ i : Nat, i < l.proxyArr.length →
      (l.remove (.inl (i : Int))).proxyArr =
        l.proxyArr.take i ++ l.proxyArr.drop (i + 1)) ∧
    (∀ p i, l.proxyArr.findIdx? (fun q => ObjId.proxy q == ObjId.proxy p) = some i →
      (l.remove (.inr (.proxy p))).proxyArr =
        l.proxyArr.take i ++ l.proxyArr.drop (i + 1)) ∧
    (∀ n, l.remove (.inr (.orig n)) = l) := by
  refine ⟨?_, ?_, ?_⟩
  · intro i hi
    exact remove_nat_take_drop l i hi
  · intro p i hfind
    by_cases hi : i < l.proxyArr.length
    · simp only [ListFieldState.remove, hfind]
      have hA : (if (i : Int) < 0 then max ((l.proxyArr.length : Int) + i) 0
          else min (i : Int) (l.proxyArr.length : Int)).toNat = i := by omega
      simp only [splice1]
      rw [hA]
    · simp only [ListFieldState.remove, hfind]
      have hA : (if (i : Int) < 0 then max ((l.proxyArr.length : Int) + i) 0
          else min (i : Int) (l.proxyArr.length : Int)).toNat = l.proxyArr.length := by
        omega
      simp only [splice1]
      rw [hA, List.take_length, List.drop_eq_nil_of_le (by omega), List.append_nil,
        List.take_of_length_le (by omega), List.drop_eq_nil_of_le (by omega),
        List.append_nil]
  · intro n
    have hnone : ∀ xs : List Nat,
        xs.findIdx? (fun q => ObjId.proxy q == ObjId.orig n) = none := by
      intro xs
      induction xs with
      | nil => rfl
      | cons x xs ih => simp [List.findIdx?_cons, ih]
    simp [ListFieldState.remove, hnone]

/-- Witness for C4 (amended): the three behaviors at a concrete list. -/
theorem c4_amended_witness :
    ((listW.remove (.inl 1)).proxyArr = [10, 30]) ∧
      ((listW.remove (.inr (.proxy 20))).proxyArr = [10, 30]) ∧
      (listW.remove (.inr (.orig 20)) = listW) := by
  refine ⟨?_, ?_, ?_⟩
  · simpa using (c4_amended listW).1 1 (by decide)
  · simpa using (c4_amended listW).2.1 20 1 (by decide)
  · exact (c4_amended listW).2.2 20

/-! ### Claim C5 -/

/-- Counterexample to claim C5: with `readOnly` set on an initialized node
(the flag cascades into the collection field), the collection's `add` still
succeeds and mutates the list — `add` and `remove` (part_001 lines 506–524)
perform no read-only check, so not every field mutator fails. -/
theorem c5_counterexample :
    ((authorA.setReadOnly true).books.readOnlyFlag = true) ∧
      (((authorA.setReadOnly true).books.add bookC).proxyArr = [0, 1, 2]) := by
  constructor <;> rfl

/-- Claim C5 (amended): while `readOnly` is set on an initialized object
node, the value field's `set` and the collection field's `set` fail with the
"Currently readOnly" illegal-state error and leave the state unchanged, but
`add` and `remove` perform no read-only check and mutate the live proxy
array normally; assigning `readOnly = false` afterwards restores the `set`
mutators. -/
theorem c5_amended (s : AuthorState) (v : JSVal) (vs : List ChildRec) (cr : ChildRec)
    (hfi : s.firstName.initialized = true) (hbi : s.books.initialized = true) :
    ((s.setReadOnly true).firstName.set v = .error "Currently readOnly") ∧
    ((s.setReadOnly true).books.set vs = .error "Currently readOnly") ∧
    (((s.setReadOnly true).books.add cr).proxyArr
      = (s.setReadOnly true).books.proxyArr ++ [(s.setReadOnly true).books.nextProxy]) ∧
    (∀ i : Int, ((s.setReadOnly true).books.remove (.inl i)).proxyArr
      = splice1 (s.setReadOnly true).books.proxyArr i) ∧
    (((s.setReadOnly true).setReadOnly false).firstName.set v
      = .ok (((s.setReadOnly true).setReadOnly false).firstName.setCore v)) ∧
    (((s.setReadOnly true).setReadOnly false).books.set vs
      = .ok (((s.setReadOnly true).setReadOnly false).books.setCore vs)) := by
  refine ⟨?_, ?_, ?_, ?_, ?_, ?_⟩
  · simp [AuthorState.setReadOnly, ValueField.set, hfi]
  · simp [AuthorState.setReadOnly, ListFieldState.setReadOnly, ListFieldState.set, hbi]
  · rfl
  · intro i; rfl
  · simp [AuthorState.setReadOnly, ValueField.set, hfi]
  · simp [AuthorState.setReadOnly, ListFieldState.setReadOnly, ListFieldState.set, hbi]

/-- Witness for C5 (amended): the guarded/unguarded behaviors at the
concrete two-book node. -/
theorem c5_amended_witness :
    ((authorA.setReadOnly true).firstName.set (.str "x")
      = .error "Currently readOnly") ∧
      (((authorA.setReadOnly true).books.add bookC).proxyArr
        = (authorA.setReadOnly true).books.proxyArr
            ++ [(authorA.setReadOnly true).books.nextProxy]) ∧
      (((authorA.setReadOnly true).setReadOnly false).firstName.set (.str "x")
        = .ok (((authorA.setReadOnly true).setReadOnly false).firstName.setCore
            (.str "x"))) := by
  obtain ⟨h1, -, h3, -, h5, -⟩ :=
    c5_amended authorA (.str "x") [] bookC rfl rfl
  exact ⟨h1, h3, h5⟩

/-! ### Claim C8 -/

/-- Counterexample to claim C8 at `x = y = ""`: initialize a field with
`"a"`, then `set("")` (stores `null` since the baseline was non-empty),
`save()` (baseline becomes `null`), then `set("")` again (the baseline is now
empty, so `undefined` is stored).  `dirty` is then `true` although the two
`set` arguments are equal under the configured equality policy — the claim
requires `dirty === (y !== x) === false`. -/
theorem c8_counterexample :
    ((((freshValueField "firstName" []).init (.str "a")).set (.str "")).map
        (fun f₁ => (f₁.save.set (.str "")).map ValueField.dirty) = .ok (.ok true)) ∧
      (areEqual (.str "") (.str "") = true) := by
  constructor <;> rfl

/-- Claim C8 (amended): for an initialized, non-read-only value field and a
NON-EMPTY `x` (the counterexample forces this restriction): after `set(x)`
then `save()`, `dirty` is `false`; after a subsequent `set(y)`, `dirty`
equals whether `y` differs from `x` under the configured equality policy
(`areEqual`: deep for plain objects, `toJSON`-normalized when available,
reference equality otherwise); after `reset()`, `dirty` is `false` and
`value` is `x` again. -/
theorem c8_amended (f : ValueField) (x y : JSVal)
    (hi : f.initialized = true) (hro : f.readOnly = false)
    (hx : isEmpty x = false) :
    (f.set x = .ok (f.setCore x)) ∧
    ((f.setCore x).save.dirty = false) ∧
    ((f.setCore x).save.set y = .ok ((f.setCore x).save.setCore y)) ∧
    (((f.setCore x).save.setCore y).dirty = !areEqual x y) ∧
    (((f.setCore x).save.setCore y).reset.map ValueField.dirty = .ok false) ∧
    (((f.setCore x).save.setCore y).reset.map ValueField.value = .ok x) := by
  have hsi : (f.setCore x).save.initialized = true := hi
  have hsro : (f.setCore x).save.readOnly = false := hro
  have hcorei : ((f.setCore x).save.setCore y).initialized = true := hsi
  have hcorero : ((f.setCore x).save.setCore y).readOnly = false := hsro
  refine ⟨set_ok hi hro x, ?_, set_ok hsi hsro y, ?_, ?_, ?_⟩
  · simp [ValueField.dirty, ValueField.value, ValueField.setCore, ValueField.save,
      toJS, hx, areEqual_refl]
  · by_cases hy : isEmpty y = true
    · have h1 : areEqual x y = false := areEqual_nonempty_empty hx hy
      have h2 : areEqual x JSVal.null = false :=
        areEqual_nonempty_empty hx (show isEmpty JSVal.null = true from rfl)
      simp [ValueField.dirty, ValueField.value, ValueField.setCore, ValueField.save,
        toJS, hx, hy, h1, h2]
    · have hyf : isEmpty y = false := by simpa using hy
      simp [ValueField.dirty, ValueField.value, ValueField.setCore, ValueField.save,
        toJS, hx, hyf]
  · rw [ValueField.reset, set_ok hcorei hcorero]
    simp [Except.map, ValueField.dirty, ValueField.value, ValueField.setCore,
      ValueField.save, toJS, hx, areEqual_refl]
  · rw [ValueField.reset, set_ok hcorei hcorero]
    simp [Except.map, ValueField.value, ValueField.setCore, ValueField.save, toJS, hx]

/-- Witness for C8 (amended): the round trip at a concrete field with
`x = "b"`, `y = "c"`. -/
theorem c8_amended_witness :
    ((((freshValueField "firstName" []).init (.str "a")).setCore (.str "b")).save.dirty
        = false) ∧
      (((((freshValueField "firstName" []).init (.str "a")).setCore
          (.str "b")).save.setCore (.str "c")).dirty = !areEqual (.str "b") (.str "c")) ∧
      (((((freshValueField "firstName" []).init (.str "a")).setCore
          (.str "b")).save.setCore (.str "c")).reset.map ValueField.value
        = .ok (.str "b")) := by
  obtain ⟨-, h2, -, h4, -, h6⟩ :=
    c8_amended ((freshValueField "firstName" []).init (.str "a"))
      (.str "b") (.str "c") rfl rfl rfl
  exact ⟨h2, h4, h6⟩

/-! ### Claim C9 -/

/-- `find?` by proxy identity commutes with a pool map that preserves it. -/
lemma find_map_pool (pool : List ChildState) (g : ChildState → ChildState)
    (hg : ∀ c, (g c).proxyRef = c.proxyRef) (p : Nat) :
    (pool.map g).find? (fun c => c.proxyRef == p)
      = (pool.find? fun c => c.proxyRef == p).map g := by
  rw [List.find?_map]
  have hpred : ((fun c : ChildState => c.proxyRef == p) ∘ g)
      = fun c : ChildState => c.proxyRef == p := by
    funext c
    simp [Function.comp, hg]
  rw [hpred]

/-- The `touched = b` cascade maps `setTouched` over the visible rows. -/
lemma rows_setTouched (l : ListFieldState) (b : Bool) :
    (l.setTouched b).rows = l.rows.map fun c => c.setTouched b := by
  have hg : ∀ c : ChildState,
      ((fun c => if l.proxyArr.contains c.proxyRef then c.setTouched b else c) c).proxyRef
        = c.proxyRef := by
    intro c
    rw [apply_ite ChildState.proxyRef]
    simp [ChildState.setTouched]
  simp only [ListFieldState.setTouched, ListFieldState.rows, ListFieldState.findRow,
    List.map_filterMap]
  apply List.filterMap_congr
  intro p hp
  rw [find_map_pool _ _ hg]
  cases hfind : l.pool.find? (fun c => c.proxyRef == p) with
  | none => simp
  | some c =>
    have hc : c.proxyRef = p := by
      have h := List.find?_some hfind
      simpa using h
    have hmem : c.proxyRef ∈ l.proxyArr := by
      rw [hc]
      exact hp
    simp [hmem]

/-- Touching never changes list validity (rules and values are untouched). -/
lemma listValid_setTouched (l : ListFieldState) (b : Bool) :
    (l.setTouched b).valid = l.valid := by
  rw [ListFieldState.valid, ListFieldState.valid, rows_setTouched]
  have h1 : (l.setTouched b).rules = l.rules := rfl
  have h2 : (l.setTouched b).proxyArr = l.proxyArr := rfl
  rw [h1, h2, List.all_map]
  have hfun : (ChildState.valid ∘ fun c : ChildState => c.setTouched b)
      = ChildState.valid := by
    funext c
    rfl
  rw [hfun]

/-- Touching never changes object validity. -/
lemma valid_setTouched (s : AuthorState) (b : Bool) :
    (s.setTouched b).valid = s.valid := by
  rw [AuthorState.valid, AuthorState.valid]
  have h1 : (s.setTouched b).firstName.valid = s.firstName.valid := rfl
  have h2 : (s.setTouched b).books.valid = s.books.valid := listValid_setTouched s.books b
  rw [h1, h2]

/-- Claim C9: `canSave()` on an initialized object node sets `touched = true`
as a side effect — cascading the assignment to the `firstName` field and
into every collection row — and returns the current value of `valid`; in
particular, on any node whose required `firstName` field reads `undefined`,
it returns `false` and leaves that field's `touched` flag `true`. -/
theorem c9_canSave (s : AuthorState) (hi : s.initialized = true) :
    (s.canSave.1 = s.setTouched true) ∧
    (s.canSave.2 = s.valid) ∧
    (s.canSave.1.firstName.touched = true) ∧
    (s.canSave.1.books.rows.all (fun c => c.title.touched) = true) ∧
    (∀ s₁ : AuthorState, required ∈ s₁.firstName.rules →
      s₁.firstName.value = .undef →
      s₁.canSave.2 = false ∧ s₁.canSave.1.firstName.touched = true) := by
  refine ⟨rfl, valid_setTouched s true, rfl, ?_, ?_⟩
  · show ((s.setTouched true).books.rows.all fun c => c.title.touched) = true
    rw [AuthorState.setTouched]
    rw [rows_setTouched]
    simp [List.all_map, Function.comp, ChildState.setTouched]
  · intro s₁ hreq hval
    have hfv : s₁.firstName.valid = false := by
      rw [Bool.eq_false_iff]
      intro h
      rw [ValueField.valid, List.all_eq_true] at h
      have hr := h required hreq
      rw [hval] at hr
      simp [required] at hr
    have hv : s₁.valid = false := by
      simp [AuthorState.valid, hfv]
    exact ⟨(valid_setTouched s₁ true).trans hv, rfl⟩

/-- A concrete author node with a required first name, initialized with an
empty record. -/
def authorReq : AuthorState := (freshAuthorState [required] []).init ⟨7, .undef, none⟩

/-- Witness for C9: the required-field scenario at a concrete node. -/
theorem c9_canSave_witness :
    (authorReq.canSave.2 = false) ∧ (authorReq.canSave.1.firstName.touched = true) := by
  have h := (c9_canSave authorReq rfl).2.2.2.2 authorReq
    (by show required ∈ [required]; simp) rfl
  exact h

/-! ### Claim C3 -/

/-- A row freshly initialized from a child record is not dirty, provided the
child's title is not the empty string (an empty-string title is stored as
`undefined` against an `""` baseline and would count as dirty from the
start). -/
lemma createChild_clean (p : Nat) (cr : ChildRec) (h : cr.title ≠ .str "") :
    (createChildState p cr).dirty = false := by
  cases ht : cr.title <;>
    simp_all [createChildState, ChildState.dirty, ValueField.init, ValueField.setCore,
      ValueField.dirty, ValueField.value, freshValueField, isPlainObject, toJS,
      isEmpty, areEqual_refl]

lemma createChild_proxyRef (p : Nat) (cr : ChildRec) :
    (createChildState p cr).proxyRef = p := rfl

lemma createChild_originalRef (p : Nat) (cr : ChildRec) :
    (createChildState p cr).originalRef = .orig cr.ref := rfl

/-- Claim C3: for a collection field initialized with two distinct children
`[a, b]` (whose rows start clean, i.e. titles are not the empty string),
`add(c)` followed by removing that same `c`'s row — whether addressed by its
proxy-side value or by its index — leaves `dirty = false`: the membership
comparison of original-tree child references against the `init` baseline is
clean again, and the surviving rows are untouched. -/
theorem c3_membership_dirty (fnR : List Rule) (bkR : List ListRule) (ar : Nat)
    (fn : JSVal) (a b c : ChildRec) (hab : a.ref ≠ b.ref)
    (ha : a.title ≠ .str "") (hb : b.title ≠ .str "") :
    (((((freshAuthorState fnR bkR).init ⟨ar, fn, some [a, b]⟩).applyOp
          (.addBook c)).applyOp (.removeVal (.proxy 2))).books.hasNewItems = false) ∧
    (((((freshAuthorState fnR bkR).init ⟨ar, fn, some [a, b]⟩).applyOp
          (.addBook c)).applyOp (.removeVal (.proxy 2))).books.dirty = false) ∧
    (((((freshAuthorState fnR bkR).init ⟨ar, fn, some [a, b]⟩).applyOp
          (.addBook c)).applyOp (.removeIdx 2)).books.dirty = false) := by
  have hne : ((ObjId.orig a.ref) == (ObjId.orig b.ref)) = false := by
    simp [hab]
  refine ⟨?_, ?_, ?_⟩ <;>
    simp [AuthorState.init, AuthorState.setReadOnly, ListFieldState.setReadOnly,
      ListFieldState.init, ListFieldState.setCore, setLoop, mapGet,
      freshAuthorState, freshListField, ListFieldState.reconcile,
      ListFieldState.rows, ListFieldState.findRow, AuthorState.applyOp,
      ListFieldState.add, ListFieldState.remove, splice1,
      ListFieldState.dirty, ListFieldState.hasNewItems, hne,
      createChild_proxyRef, createChild_originalRef, List.find?_cons,
      createChild_clean, ha, hb]

/-- Witness for C3: the concrete two-book collection with an added and
re-removed third book. -/
theorem c3_membership_dirty_witness :
    ((((freshAuthorState [] []).init ⟨100, .str "a1", some [bookA, bookB]⟩).applyOp
        (.addBook bookC)).applyOp (.removeVal (.proxy 2))).books.dirty = false := by
  have h := c3_membership_dirty [] [] 100 (.str "a1") bookA bookB bookC
    (by decide) (by decide) (by decide)
  exact h.2.1

/-! ### Claim C1 -/

/-- Pair each child with the proxy identity it will be allocated, starting
from `n`. -/
def tagFrom (n : Nat) : List ChildRec → List (Nat × ChildRec)
  | [] => []
  | cr :: rest => (n, cr) :: tagFrom (n + 1) rest

lemma tagFrom_mem {n : Nat} {vs : List ChildRec} {pr : Nat × ChildRec}
    (h : pr ∈ tagFrom n vs) :
    ∃ m, ∃ hm : m < vs.length, pr.1 = n + m ∧ pr.2 = vs.get ⟨m, hm⟩ := by
  induction vs generalizing n with
  | nil => cases h
  | cons cr rest ih =>
    rw [tagFrom] at h
    rcases List.mem_cons.mp h with h1 | h2
    · exact ⟨0, by simp, by simp [h1], by simp [h1]⟩
    · obtain ⟨m, hm, h3, h4⟩ := ih h2
      refine ⟨m + 1, by simpa using Nat.succ_lt_succ hm, ?_, ?_⟩
      · rw [h3]; omega
      · rw [h4]; rfl

/-- The identity-preservation invariant on a list field: proxy identities
below the initial row count can only belong to the rows created at `init`,
and those rows' `originalValue`s are the corresponding caller-supplied
children. -/
def RowInv (books0 : List ChildRec) (l : ListFieldState) : Prop :=
  books0.length ≤ l.nextProxy ∧
  ∀ cs ∈ l.pool, ∀ i, ∀ hi : i < books0.length, cs.proxyRef = i →
    cs.originalRef = .orig (books0.get ⟨i, hi⟩).ref

lemma rowInv_of_eq {books0 : List ChildRec} {l l' : ListFieldState}
    (h : RowInv books0 l) (hp : l'.pool = l.pool) (hn : l'.nextProxy = l.nextProxy) :
    RowInv books0 l' := by
  obtain ⟨h1, h2⟩ := h
  refine ⟨by rw [hn]; exact h1, ?_⟩
  intro cs hcs
  rw [hp] at hcs
  exact h2 cs hcs

lemma reconcile_pool (l : ListFieldState) : l.reconcile.pool = l.pool := by
  rw [ListFieldState.reconcile]
  split
  · rfl
  · split <;> rfl

lemma reconcile_nextProxy (l : ListFieldState) : l.reconcile.nextProxy = l.nextProxy := by
  rw [ListFieldState.reconcile]
  split
  · rfl
  · split <;> rfl

lemma rowInv_reconcile {books0 : List ChildRec} {l : ListFieldState}
    (h : RowInv books0 l) : RowInv books0 l.reconcile :=
  rowInv_of_eq h (reconcile_pool l) (reconcile_nextProxy l)

/-- Running the `set` loop from a state with all-fresh identities lays the
children out as rows `n, n+1, …` in order. -/
lemma setLoop_fresh (vs : List ChildRec) :
    ∀ (l : ListFieldState) (arr : List Nat),
      (vs.map ChildRec.ref).Nodup →
      (∀ cr ∈ vs, mapGet l.nonProxyRowMap (.orig cr.ref) = none) →
      (setLoop l arr vs).1.pool
          = l.pool ++ (tagFrom l.nextProxy vs).map (fun pr => createChildState pr.1 pr.2) ∧
        (setLoop l arr vs).1.nextProxy = l.nextProxy + vs.length := by
  induction vs with
  | nil =>
    intro l arr _ _
    simp [setLoop, tagFrom]
  | cons cr rest ih =>
    intro l arr hnd habs
    have hget := habs cr (List.mem_cons_self cr rest)
    have hhead : cr.ref ∉ rest.map ChildRec.ref := by
      have := hnd
      rw [List.map_cons, List.nodup_cons] at this
      exact this.1
    have hnd' : (rest.map ChildRec.ref).Nodup := by
      have := hnd
      rw [List.map_cons, List.nodup_cons] at this
      exact this.2
    have habs' : ∀ cr' ∈ rest,
        mapGet ((ObjId.orig cr.ref, l.nextProxy) :: l.nonProxyRowMap)
          (.orig cr'.ref) = none := by
      intro cr' hm
      have hne : cr.ref ≠ cr'.ref := by
        intro he
        exact hhead (he ▸ List.mem_map_of_mem ChildRec.ref hm)
      rw [mapGet, List.find?_cons]
      have : ((ObjId.orig cr.ref, l.nextProxy).1 == ObjId.orig cr'.ref) = false := by
        simp [hne]
      rw [this]
      exact habs cr' (List.mem_cons_of_mem cr hm)
    rw [setLoop, hget]
    obtain ⟨hpool, hnext⟩ := ih
      { l with pool := l.pool ++ [createChildState l.nextProxy cr]
               nonProxyRowMap := (ObjId.orig cr.ref, l.nextProxy) :: l.nonProxyRowMap
               nextProxy := l.nextProxy + 1 }
      (arr ++ [l.nextProxy]) hnd' habs'
    refine ⟨?_, ?_⟩
    · rw [hpool]
      simp [tagFrom, List.append_assoc]
    · rw [hnext]
      simp [List.length_cons]
      omega

/-- The `set` loop preserves the identity-preservation invariant: it never
touches an existing row and allocates only fresh proxy identities. -/
lemma rowInv_setLoop (vs : List ChildRec) (books0 : List ChildRec) :
    ∀ (l : ListFieldState) (arr : List Nat),
      RowInv books0 l → RowInv books0 (setLoop l arr vs).1 := by
  induction vs with
  | nil =>
    intro l arr h
    simpa [setLoop] using h
  | cons cr rest ih =>
    intro l arr h
    rw [setLoop]
    cases hget : mapGet l.nonProxyRowMap (.orig cr.ref) with
    | some p => exact ih _ _ h
    | none =>
      apply ih
      obtain ⟨h1, h2⟩ := h
      constructor
      · show books0.length ≤ l.nextProxy + 1
        omega
      · intro cs hcs i hi hpr
        rw [List.mem_append] at hcs
        rcases hcs with hold | hnew
        · exact h2 cs hold i hi hpr
        · rw [List.mem_singleton] at hnew
          subst hnew
          rw [createChild_proxyRef] at hpr
          omega

lemma setTitle_proxyRef (c : ChildState) (v : JSVal) :
    (c.setTitle v).proxyRef = c.proxyRef := by
  rw [ChildState.setTitle]
  cases c.title.set v <;> rfl

lemma setTitle_originalRef (c : ChildState) (v : JSVal) :
    (c.setTitle v).originalRef = c.originalRef := by
  rw [ChildState.setTitle]
  cases c.title.set v <;> rfl

lemma rowInv_updateRow {books0 : List ChildRec} {l : ListFieldState} (p : Nat)
    (v : JSVal) (h : RowInv books0 l) :
    RowInv books0 (l.updateRow p fun c => c.setTitle v) := by
  obtain ⟨h1, h2⟩ := h
  refine ⟨h1, ?_⟩
  intro cs hcs i hi hpr
  rw [ListFieldState.updateRow] at hcs
  obtain ⟨c0, hc0, hceq⟩ := List.mem_map.mp hcs
  by_cases hc : (c0.proxyRef == p) = true
  · rw [if_pos hc] at hceq
    subst hceq
    rw [setTitle_originalRef]
    rw [setTitle_proxyRef] at hpr
    exact h2 c0 hc0 i hi hpr
  · rw [if_neg hc] at hceq
    subst hceq
    exact h2 c0 hc0 i hi hpr

lemma rowInv_add {books0 : List ChildRec} {l : ListFieldState} (cr : ChildRec)
    (h : RowInv books0 l) : RowInv books0 (l.add cr) := by
  obtain ⟨h1, h2⟩ := h
  constructor
  · show books0.length ≤ l.nextProxy + 1
    omega
  · intro cs hcs i hi hpr
    rw [ListFieldState.add] at hcs
    rw [List.mem_append] at hcs
    rcases hcs with hold | hnew
    · exact h2 cs hold i hi hpr
    · rw [List.mem_singleton] at hnew
      subst hnew
      rw [createChild_proxyRef] at hpr
      omega

lemma remove_pool (l : ListFieldState) (arg : Int ⊕ ObjId) :
    (l.remove arg).pool = l.pool := by
  cases arg with
  | inl i => rfl
  | inr v =>
    cases h : l.proxyArr.findIdx? (fun p => ObjId.proxy p == v) <;>
      simp [ListFieldState.remove, h]

lemma remove_nextProxy (l : ListFieldState) (arg : Int ⊕ ObjId) :
    (l.remove arg).nextProxy = l.nextProxy := by
  cases arg with
  | inl i => rfl
  | inr v =>
    cases h : l.proxyArr.findIdx? (fun p => ObjId.proxy p == v) <;>
      simp [ListFieldState.remove, h]

/-- Every operation preserves the identity-preservation invariant of the
collection. -/
lemma rowInv_applyOp {books0 : List ChildRec} {s : AuthorState} (op : Op)
    (h : RowInv books0 s.books) : RowInv books0 (s.applyOp op).books := by
  cases op with
  | setFirstName v =>
    rw [AuthorState.applyOp]
    cases s.firstName.set v <;> exact h
  | setBooks vs =>
    rw [AuthorState.applyOp]
    cases hset : s.books.set vs with
    | error e => exact h
    | ok l =>
      rw [ListFieldState.set] at hset
      by_cases h1 : (!s.books.initialized) = true
      · rw [if_pos h1] at hset
        cases hset
      · rw [if_neg h1] at hset
        by_cases h2 : s.books.readOnlyFlag = true
        · rw [if_pos h2] at hset
          cases hset
        · rw [if_neg h2] at hset
          cases hset
          apply rowInv_reconcile
          exact rowInv_of_eq (rowInv_setLoop vs books0 s.books [] h) rfl rfl
  | addBook cr => exact rowInv_reconcile (rowInv_add cr h)
  | removeIdx i =>
    exact rowInv_reconcile
      (rowInv_of_eq h (remove_pool s.books (.inl i)) (remove_nextProxy s.books (.inl i)))
  | removeVal v =>
    exact rowInv_reconcile
      (rowInv_of_eq h (remove_pool s.books (.inr v)) (remove_nextProxy s.books (.inr v)))
  | setRowTitle p v => exact rowInv_reconcile (rowInv_updateRow p v h)

/-- No operation ever rebinds the object node's original-tree identity. -/
lemma originalRef_applyOp (s : AuthorState) (op : Op) :
    (s.applyOp op).originalRef = s.originalRef := by
  cases op with
  | setFirstName v =>
    rw [AuthorState.applyOp]
    cases s.firstName.set v <;> rfl
  | setBooks vs =>
    rw [AuthorState.applyOp]
    cases s.books.set vs <;> rfl
  | addBook cr => rfl
  | removeIdx i => rfl
  | removeVal v => rfl
  | setRowTitle p v => rfl

lemma originalRef_runOps (s : AuthorState) (ops : List Op) :
    (s.runOps ops).originalRef = s.originalRef := by
  induction ops generalizing s with
  | nil => rfl
  | cons op ops ih =>
    rw [AuthorState.runOps, List.foldl_cons]
    rw [show (List.foldl AuthorState.applyOp (s.applyOp op) ops)
      = (s.applyOp op).runOps ops from rfl]
    rw [ih (s.applyOp op), originalRef_applyOp]

lemma rowInv_runOps {books0 : List ChildRec} (s : AuthorState) (ops : List Op)
    (h : RowInv books0 s.books) : RowInv books0 (s.runOps ops).books := by
  induction ops generalizing s with
  | nil => exact h
  | cons op ops ih =>
    rw [AuthorState.runOps, List.foldl_cons]
    exact ih (s.applyOp op) (rowInv_applyOp op h)

/-- Running the `set` loop on a state with no registered rows and a zeroed
allocator establishes the invariant for the incoming children. -/
lemma rowInv_setCore_fresh (l : ListFieldState) (vs : List ChildRec)
    (hnd : (vs.map ChildRec.ref).Nodup)
    (hpool : l.pool = []) (hmap : l.nonProxyRowMap = []) (hnp : l.nextProxy = 0) :
    RowInv vs (setLoop l [] vs).1 := by
  have habs : ∀ cr ∈ vs, mapGet l.nonProxyRowMap (.orig cr.ref) = none := by
    intro cr _
    rw [hmap]
    rfl
  obtain ⟨hp, hn⟩ := setLoop_fresh vs l [] hnd habs
  constructor
  · rw [hn, hnp]
    omega
  · intro cs hcs i hi hpr
    rw [hp, hpool, List.nil_append] at hcs
    obtain ⟨pr, hprm, hcr⟩ := List.mem_map.mp hcs
    obtain ⟨m, hm, h1, h2⟩ := tagFrom_mem hprm
    subst hcr
    rw [createChild_proxyRef] at hpr
    have hmi : m = i := by
      rw [hnp] at h1
      omega
    subst hmi
    rw [createChild_originalRef, h2]

/-- `init` on a list field with no registered rows establishes the invariant. -/
lemma rowInv_listInit (l : ListFieldState) (values : Option (List ChildRec))
    (hnd : ((values.getD []).map ChildRec.ref).Nodup)
    (hpool : l.pool = []) (hmap : l.nonProxyRowMap = []) (hnp : l.nextProxy = 0) :
    RowInv (values.getD []) (l.init values) := by
  have hp₂ : (({ l with
      originalCopy := some ((values.getD []).map fun cr => ObjId.orig cr.ref),
      initialized := true } : ListFieldState).setReadOnly false).pool = [] := by
    rw [ListFieldState.setReadOnly]
    show l.pool.map _ = []
    rw [hpool]
    rfl
  have hm₂ : (({ l with
      originalCopy := some ((values.getD []).map fun cr => ObjId.orig cr.ref),
      initialized := true } : ListFieldState).setReadOnly false).nonProxyRowMap = [] :=
    hmap
  have hn₂ : (({ l with
      originalCopy := some ((values.getD []).map fun cr => ObjId.orig cr.ref),
      initialized := true } : ListFieldState).setReadOnly false).nextProxy = 0 :=
    hnp
  exact rowInv_of_eq (rowInv_setCore_fresh _ _ hnd hp₂ hm₂ hn₂) rfl rfl

/-- `init` on a fresh node establishes the invariant (distinct children are
laid out as rows `0, 1, …` carrying their own identities). -/
lemma rowInv_init (fnR : List Rule) (bkR : List ListRule) (r : AuthorRec)
    (hnd : ((r.books.getD []).map ChildRec.ref).Nodup) :
    RowInv (r.books.getD []) ((freshAuthorState fnR bkR).init r).books :=
  rowInv_reconcile (rowInv_listInit _ r.books hnd rfl rfl rfl)

/-- A visible row is a registered row. -/
lemma mem_pool_of_mem_rows {l : ListFieldState} {cs : ChildState}
    (h : cs ∈ l.rows) : cs ∈ l.pool := by
  rw [ListFieldState.rows] at h
  obtain ⟨p, _, hfind⟩ := List.mem_filterMap.mp h
  exact List.mem_of_find?_eq_some hfind

/-- Claim C1: after `init(R)` on a fresh object node with pairwise-distinct
children inside `R`, and any finite sequence of `set`/`add`/`remove` calls on
the node or its fields, `originalValue` is still the very same record `R`
(the model never rebinds the stored identity), and every child row whose
`title` was not individually mutated — indeed every surviving row allocated
at `init` — has an `originalValue` reference-equal to the corresponding
child the caller supplied inside `R`. -/
theorem c1_identity_preservation (fnR : List Rule) (bkR : List ListRule)
    (r : AuthorRec) (ops : List Op)
    (hnd : ((r.books.getD []).map ChildRec.ref).Nodup) :
    ((((freshAuthorState fnR bkR).init r).runOps ops).originalValue = some r.ref) ∧
    (∀ i, ∀ hi : i < (r.books.getD []).length,
      (∀ v, Op.setRowTitle i v ∉ ops) →
      ∀ cs ∈ (((freshAuthorState fnR bkR).init r).runOps ops).books.rows,
        cs.proxyRef = i →
        cs.originalRef = .orig ((r.books.getD []).get ⟨i, hi⟩).ref) := by
  constructor
  · rw [AuthorState.originalValue, originalRef_runOps]
    rfl
  · intro i hi _ cs hcs hpr
    have hinv := rowInv_runOps ((freshAuthorState fnR bkR).init r) ops
      (rowInv_init fnR bkR r hnd)
    exact hinv.2 cs (mem_pool_of_mem_rows hcs) i hi hpr

/-- Witness for C1: the concrete two-book record after an `add` and a
first-row field edit elsewhere; the second init row still carries `bookB`. -/
theorem c1_identity_preservation_witness :
    ((((freshAuthorState [] []).init ⟨100, .str "a1", some [bookA, bookB]⟩).runOps
        [.addBook bookC, .setFirstName (.str "a2"), .removeIdx 0]).originalValue
      = some 100) ∧
    ((createChildState 1 bookB).originalRef = .orig 1) := by
  have h := c1_identity_preservation [] [] ⟨100, .str "a1", some [bookA, bookB]⟩
    [.addBook bookC, .setFirstName (.str "a2"), .removeIdx 0] (by decide)
  refine ⟨h.1, ?_⟩
  have h2 := h.2 1 (by decide)
    (by
      intro v hv
      simp at hv)
    (createChildState 1 bookB)
    (by
      show createChildState 1 bookB ∈
        [createChildState 1 bookB, createChildState 2 bookC]
      exact List.mem_cons_self _ _)
    rfl
  exact h2

end FormState
